import Mathlib

/-!
Verification development for the token-minimizer repository: a shallow
embedding of the vocabulary-dump script (dump_vocab.py) and of the
token/character ratio analysis pipeline (token2chars_ratio_analysis.py),
together with theorems settling the specification claims about them.

The byte-pair-encoding engine itself (tiktoken) is external to the
repository; where a claim depends on its behaviour, the encoder is
modelled from the specification (section 4.2), and the corresponding
definitions say so in their doc comments.  Everything else is translated
directly from the Python sources.
-/

/- ### UTF-8 encoding (spec section 4.2 step 1: the input string is encoded
   to raw bytes using UTF-8). -/

/-- Standard UTF-8 encoding of a single Unicode scalar value as a list of
bytes (each a natural number below 256). -/
def utf8EncodeChar (c : Char) : List Nat :=
  let n := c.toNat
  if n < 0x80 then [n]
  else if n < 0x800 then [0xC0 + n / 64, 0x80 + n % 64]
  else if n < 0x10000 then [0xE0 + n / 4096, 0x80 + n / 64 % 64, 0x80 + n % 64]
  else [0xF0 + n / 262144, 0x80 + n / 4096 % 64, 0x80 + n / 64 % 64, 0x80 + n % 64]

/-- UTF-8 encoding of a string: the concatenation of the encodings of its
characters. -/
def utf8Encode (s : String) : List Nat :=
  (s.data.map utf8EncodeChar).flatten

/- ### BPE encoder, modelled from the spec (the engine is the external
   tiktoken library; only its callers live in the repository). -/

/-- Modelled from the spec: the merge table of the external BPE engine,
a mapping from token byte sequences to integer ranks (ids); missing
sequences are not tokens. -/
def RankFun : Type := List Nat → Option Nat

/-- Modelled from the spec: find, among all adjacent symbol pairs whose
concatenation is a known token, the pair with the lowest id, preferring
the leftmost occurrence on ties.  Returns the pair's position and rank.
The engine itself is external (tiktoken); this follows spec section 4.2
step 3. -/
def bestPairAux (rank : RankFun) : List (List Nat) → Nat → Option (Nat × Nat)
  | a :: b :: rest, i =>
    match rank (a ++ b), bestPairAux rank (b :: rest) (i + 1) with
    | some r, some ji => if r ≤ ji.2 then some (i, r) else some ji
    | some r, none => some (i, r)
    | none, t => t
  | _, _ => none

/-- Modelled from the spec: merge the adjacent symbol pair at the given
position into a single symbol holding the concatenated byte sequence
(spec section 4.2 step 3). -/
def mergeAt : List (List Nat) → Nat → List (List Nat)
  | a :: b :: rest, 0 => (a ++ b) :: rest
  | a :: rest, n + 1 => a :: mergeAt rest n
  | l, _ => l

/-- Modelled from the spec: repeatedly merge the lowest-ranked mergeable
adjacent pair until no adjacent pair's concatenation is a known token
(spec section 4.2 steps 3-4).  Each merge shortens the symbol list by
one, so an initial fuel of the list length always suffices. -/
def bpeSteps (rank : RankFun) : Nat → List (List Nat) → List (List Nat)
  | 0, syms => syms
  | fuel + 1, syms =>
    match bestPairAux rank syms 0 with
    | none => syms
    | some ji => bpeSteps rank fuel (mergeAt syms ji.1)

/-- Modelled from the spec: the token byte sequences produced by the
external BPE engine for a given byte input — start from one length-1
symbol per byte and merge to a fixed point (spec section 4.2 steps 2-4). -/
def bpeTokens (rank : RankFun) (bytes : List Nat) : List (List Nat) :=
  bpeSteps rank bytes.length (bytes.map (fun b => [b]))

/-- Error cases of the modelled encoder (spec section 7). -/
inductive EncodeError
  | unencodableSequence
deriving DecidableEq

/-- Modelled from the spec: map each final symbol to its token id via the
merge table, failing when a final byte sequence has no corresponding
token (spec section 4.2 step 5). -/
def tokensToIds (rank : RankFun) : List (List Nat) → Except EncodeError (List Nat)
  | [] => Except.ok []
  | t :: ts =>
    match rank t, tokensToIds rank ts with
    | some i, Except.ok is => Except.ok (i :: is)
    | _, _ => Except.error EncodeError.unencodableSequence

/-- Modelled from the spec: the full encoder — UTF-8 encode, merge to a
fixed point, then map symbols to ids (spec section 4.2). -/
def bpeEncodeIds (rank : RankFun) (word : String) : Except EncodeError (List Nat) :=
  tokensToIds rank (bpeTokens rank (utf8Encode word))

/- ### UTF-8 decoding with replacement, as performed by dump_vocab.py via
   Python's bytes.decode.  The codec itself is the Python runtime's;
   modelled from the spec (section 7: decoding tolerates invalid byte
   sequences by substituting a replacement character). -/

/-- Test for a UTF-8 continuation byte (0x80..0xBF). -/
def contByte (b : Nat) : Bool := 0x80 ≤ b && b ≤ 0xBF

/-- Valid range for the first continuation byte of a three-byte sequence,
given its lead byte (rules out overlong encodings and surrogates). -/
def contByte1of3 (b b1 : Nat) : Bool :=
  if b = 0xE0 then 0xA0 ≤ b1 && b1 ≤ 0xBF
  else if b = 0xED then 0x80 ≤ b1 && b1 ≤ 0x9F
  else contByte b1

/-- Valid range for the first continuation byte of a four-byte sequence,
given its lead byte (rules out overlong encodings and values above
U+10FFFF). -/
def contByte1of4 (b b1 : Nat) : Bool :=
  if b = 0xF0 then 0x90 ≤ b1 && b1 ≤ 0xBF
  else if b = 0xF4 then 0x80 ≤ b1 && b1 ≤ 0x8F
  else contByte b1

/-- The Unicode replacement character U+FFFD. -/
def repChar : Char := Char.ofNat 0xFFFD

/-- Modelled from the spec: one step of UTF-8 decoding with the
replacement strategy of Python's errors="replace" handler — the first
character (or one U+FFFD for a maximal invalid subpart) followed by the
continuation rec on the remaining bytes (the codec is the external Python
runtime). -/
def utf8DecodeStep (rec : List Nat → List Char) : List Nat → List Char := fun l =>
  match l with
  | [] => []
  | b :: rest =>
    if b < 0x80 then Char.ofNat b :: rec rest
    else if 0xC2 ≤ b && b ≤ 0xDF then
      match rest with
      | b1 :: rest1 =>
        if contByte b1 then
          Char.ofNat ((b - 0xC0) * 64 + (b1 - 0x80)) :: rec rest1
        else repChar :: rec rest
      | [] => [repChar]
    else if 0xE0 ≤ b && b ≤ 0xEF then
      match rest with
      | b1 :: rest1 =>
        if contByte1of3 b b1 then
          match rest1 with
          | b2 :: rest2 =>
            if contByte b2 then
              Char.ofNat ((b - 0xE0) * 4096 + (b1 - 0x80) * 64 + (b2 - 0x80)) :: rec rest2
            else repChar :: rec rest1
          | [] => [repChar]
        else repChar :: rec rest
      | [] => [repChar]
    else if 0xF0 ≤ b && b ≤ 0xF4 then
      match rest with
      | b1 :: rest1 =>
        if contByte1of4 b b1 then
          match rest1 with
          | b2 :: rest2 =>
            if contByte b2 then
              match rest2 with
              | b3 :: rest3 =>
                if contByte b3 then
                  Char.ofNat ((b - 0xF0) * 262144 + (b1 - 0x80) * 4096 +
                    (b2 - 0x80) * 64 + (b3 - 0x80)) :: rec rest3
                else repChar :: rec rest2
              | [] => [repChar]
            else repChar :: rec rest1
          | [] => [repChar]
        else repChar :: rec rest
      | [] => [repChar]
    else repChar :: rec rest

/-- Modelled from the spec: iterated decoding steps.  The fuel argument
only serves termination: every step consumes at least one byte, so fuel
equal to the list length (as the wrapper below passes) never runs out. -/
def utf8DecodeReplaceAux : Nat → List Nat → List Char
  | 0, _ => []
  | fuel + 1, l => utf8DecodeStep (utf8DecodeReplaceAux fuel) l

/-- Modelled from the spec: UTF-8 decoding of a byte list with Python's
errors="replace" strategy. -/
def utf8DecodeReplace (l : List Nat) : List Char :=
  utf8DecodeReplaceAux l.length l

/-- Modelled from the spec: one step of the UTF-8 validity check — the
validity of the first byte sequence combined with the continuation rec on
the remaining bytes. -/
def utf8ValidStep (rec : List Nat → Bool) : List Nat → Bool := fun l =>
  match l with
  | [] => true
  | b :: rest =>
    if b < 0x80 then rec rest
    else if 0xC2 ≤ b && b ≤ 0xDF then
      match rest with
      | b1 :: rest1 => contByte b1 && rec rest1
      | [] => false
    else if 0xE0 ≤ b && b ≤ 0xEF then
      match rest with
      | b1 :: b2 :: rest2 => contByte1of3 b b1 && contByte b2 && rec rest2
      | _ => false
    else if 0xF0 ≤ b && b ≤ 0xF4 then
      match rest with
      | b1 :: b2 :: b3 :: rest3 =>
        contByte1of4 b b1 && contByte b2 && contByte b3 && rec rest3
      | _ => false
    else false

/-- Modelled from the spec: iterated validity steps, fuelled like the
decoder (fuel equal to the byte count never runs out, and a run-out only
happens on the empty remainder, which is valid). -/
def utf8ValidAux : Nat → List Nat → Bool
  | 0, _ => true
  | fuel + 1, l => utf8ValidStep (utf8ValidAux fuel) l

/-- Modelled from the spec: validity of a byte list as UTF-8; Python's
strict bytes.decode succeeds exactly on valid inputs (the codec is the
external Python runtime). -/
def utf8Valid (l : List Nat) : Bool :=
  utf8ValidAux l.length l

/-- Modelled from the spec: strict UTF-8 decoding — succeeds with the
decoded characters exactly on valid inputs, like Python's bytes.decode
with no error handler. -/
def utf8DecodeStrict (l : List Nat) : Option (List Char) :=
  if utf8Valid l then some (utf8DecodeReplace l) else none

/-- Decoding as dump_vocab.py performs it: try the strict decode and fall
back to replacement on failure (the try/except around token.decode). -/
def pyDecode (l : List Nat) : List Char :=
  match utf8DecodeStrict l with
  | some cs => cs
  | none => utf8DecodeReplace l

/- ### Python value equality, for the special-token membership test in
   dump_vocab.py (token == special_token across types). -/

/-- Python values that appear in the dump_vocab.py special-token test:
byte strings and integers. -/
inductive PyVal
  | pybytes (bs : List Nat)
  | pyint (n : Nat)
deriving DecidableEq

/-- Python equality between such values: equal only within the same type;
a bytes-to-int comparison is always False. -/
def pyEq : PyVal → PyVal → Bool
  | PyVal.pybytes a, PyVal.pybytes b => a == b
  | PyVal.pyint a, PyVal.pyint b => a == b
  | _, _ => false

/- ### The vocabulary dump of dump_vocab.py. -/

/-- Hexadecimal digit for a value below 16, lowercase as Python's
bytes.hex produces. -/
def hexDigit (n : Nat) : Char :=
  if n < 10 then Char.ofNat (48 + n) else Char.ofNat (87 + n)

/-- Hex string of a byte list, two lowercase digits per byte, as Python's
bytes.hex produces. -/
def bytesToHex (l : List Nat) : String :=
  String.mk ((l.map (fun b => [hexDigit (b / 16), hexDigit (b % 16)])).flatten)

/-- One row of the vocabulary dump written by dump_vocab.py. -/
structure DumpRow where
  token_id : Nat
  token_bytes : String
  token_string : List Char
  token_length : Nat
  is_special : Bool
  is_printable : Bool
  is_ascii : Bool
deriving DecidableEq

/-- The special-token membership test of dump_vocab.py: scan the values of
the special-token registry and compare each against the token's byte
string with Python equality. -/
def isSpecialFlag (token : List Nat) (specialVals : List PyVal) : Bool :=
  specialVals.any (fun v => pyEq (PyVal.pybytes token) v)

/-- Construction of one vocab_data entry in dump_vocab.py: decode the
token bytes (strict, falling back to replacement), flag special-token
membership, and derive printability and ASCII-ness from the decoded
string.  Python's str.isprintable is the external predicate pr. -/
def mkVocabRow (pr : List Char → Bool) (specialVals : List PyVal) (idx : Nat)
    (token : List Nat) : DumpRow :=
  let decoded := pyDecode token
  { token_id := idx
    token_bytes := bytesToHex token
    token_string := decoded
    token_length := token.length
    is_special := isSpecialFlag token specialVals
    is_printable := pr decoded
    is_ascii := decoded.all (fun c => c.toNat < 128) }

/-- The vocab_data loop of dump_vocab.py: one row per (id, token) entry of
the rank-to-token mapping, with the special-token registry's values (a
string-to-integer mapping, so its values are integers) as comparison
targets. -/
def vocabData (pr : List Char → Bool) (registry : List (String × Nat))
    (entries : List (Nat × List Nat)) : List DumpRow :=
  entries.map (fun e =>
    mkVocabRow pr (registry.map (fun p => PyVal.pyint p.2)) e.1 e.2)

/- ### The loaded vocabulary CSV of token2chars_ratio_analysis.py.  A row
   keeps the dumped columns; token_string may be missing (pandas NaN for
   an empty CSV field), hence the Option. -/

/-- One row of the vocabulary CSV as loaded by load_vocab. -/
structure CsvRow where
  token_id : Nat
  token_bytes : String
  token_string : Option String
  token_length : Nat
  is_special : Bool
  is_printable : Bool
  is_ascii : Bool
deriving DecidableEq

/-- The in-memory dataframe: the loaded rows plus the bucket column that
categorize_tokens may have added. -/
structure VocabFrame where
  rows : List CsvRow
  bucketCol : Option (List String)
deriving DecidableEq

/- ### summary_stats. -/

/-- The counts printed by summary_stats. -/
structure SummaryOut where
  total : Nat
  specialCount : Nat
  printableCount : Nat
  asciiCount : Nat
deriving DecidableEq

/-- The aggregates summary_stats reads from the dataframe. -/
def summaryOf (df : VocabFrame) : SummaryOut :=
  { total := df.rows.length
    specialCount := df.rows.countP (fun r => r.is_special)
    printableCount := df.rows.countP (fun r => r.is_printable)
    asciiCount := df.rows.countP (fun r => r.is_ascii) }

/-- summary_stats of token2chars_ratio_analysis.py as a state transformer:
it only reads the dataframe (no assignment in its body), so the resulting
frame is the argument itself. -/
def summary_stats (df : VocabFrame) : VocabFrame × SummaryOut :=
  (df, summaryOf df)

/- ### length_distribution. -/

/-- Insert into a sorted list of lengths, ascending. -/
def insertAscNat (n : Nat) : List Nat → List Nat
  | [] => [n]
  | m :: ms => if n ≤ m then n :: m :: ms else m :: insertAscNat n ms

/-- Distinct values of a list in ascending order with their counts, as
pandas value_counts().sort_index() produces. -/
def valueCountsSorted (l : List Nat) : List (Nat × Nat) :=
  (l.dedup.foldr insertAscNat []).map (fun v => (v, l.count v))

/-- Stable insertion for a descending sort by key: a row is placed before
the first row whose key is not larger, so earlier rows precede equal-key
later rows (pandas nlargest keeps the first). -/
def insertDescBy (key : CsvRow → Nat) (r : CsvRow) : List CsvRow → List CsvRow
  | [] => [r]
  | x :: xs => if key x ≤ key r then r :: x :: xs else x :: insertDescBy key r xs

/-- Stable insertion for an ascending sort by key (pandas nsmallest keeps
the first). -/
def insertAscBy (key : CsvRow → Nat) (r : CsvRow) : List CsvRow → List CsvRow
  | [] => [r]
  | x :: xs => if key r ≤ key x then r :: x :: xs else x :: insertAscBy key r xs

/-- Stable descending sort by key. -/
def sortDescBy (key : CsvRow → Nat) (l : List CsvRow) : List CsvRow :=
  l.foldr (insertDescBy key) []

/-- Stable ascending sort by key. -/
def sortAscBy (key : CsvRow → Nat) (l : List CsvRow) : List CsvRow :=
  l.foldr (insertAscBy key) []

/-- The data printed by length_distribution: the length column, its
value counts in index order, and the ten largest and smallest rows by
token_length. -/
structure LengthOut where
  lengths : List Nat
  histogram : List (Nat × Nat)
  topLong : List CsvRow
  topShort : List CsvRow
deriving DecidableEq

/-- length_distribution of token2chars_ratio_analysis.py as a state
transformer: it only reads the dataframe, so the resulting frame is the
argument itself. -/
def length_distribution (df : VocabFrame) : VocabFrame × LengthOut :=
  (df,
    { lengths := df.rows.map (fun r => r.token_length)
      histogram := valueCountsSorted (df.rows.map (fun r => r.token_length))
      topLong := (sortDescBy (fun r => r.token_length) df.rows).take 10
      topShort := (sortAscBy (fun r => r.token_length) df.rows).take 10 })

/- ### categorize_tokens. -/

/-- First-character test standing for Python's str.startswith with a
one-character argument. -/
def startsWithChar (cd : String) (c0 : Char) : Bool :=
  match cd.data with
  | [] => false
  | c :: _ => c = c0

/-- The bucket function nested in categorize_tokens.  The general Unicode
category of a character (unicodedata.category, a two-letter code such as
"Lu") is external to the repository and passed in as cat. -/
def bucket (cat : Char → String) (s : String) : String :=
  match s.data with
  | [] => "empty"
  | c :: _ =>
    if c = 'Ġ' then "whitespace_prefixed"
    else
      let cd := cat c
      if startsWithChar cd 'L' then "letter"
      else if startsWithChar cd 'N' then "number"
      else if startsWithChar cd 'P' then "punctuation"
      else if startsWithChar cd 'Z' then "space"
      else "other"

/-- Bucket assignment as the spec words it: classify by the general
Unicode category of the first character — letter, number, punctuation,
space, else other.  Stated from the spec for comparison with the code's
bucket function. -/
def specBucketOfCategory (cd : String) : String :=
  if startsWithChar cd 'L' then "letter"
  else if startsWithChar cd 'N' then "number"
  else if startsWithChar cd 'P' then "punctuation"
  else if startsWithChar cd 'Z' then "space"
  else "other"

/-- The fillna('') assignment of categorize_tokens on one row: a missing
token_string becomes the empty string. -/
def fillRow (r : CsvRow) : CsvRow :=
  { r with token_string := some (r.token_string.getD "") }

/-- categorize_tokens of token2chars_ratio_analysis.py as a state
transformer: it assigns the filled token_string column back into the
dataframe, computes the bucket of every token_string, and assigns that as
a new bucket column; the printed output is the bucket list (whose value
counts the script prints). -/
def categorize_tokens (cat : Char → String) (df : VocabFrame) :
    VocabFrame × List String :=
  let filled := df.rows.map fillRow
  let buckets := filled.map (fun r => bucket cat (r.token_string.getD ""))
  ({ rows := filled, bucketCol := some buckets }, buckets)

/- ### Per-word analysis (the loop bodies of analyze_words and main). -/

/-- Error raised by the vocabulary lookup, named after the spec's
UnknownTokenError (pandas raises KeyError from .loc on a missing id). -/
inductive AnalysisError
  | unknownToken
deriving DecidableEq

/-- Lookup of one token id in the loaded vocabulary (the row selected by
set_index followed by .loc). -/
def lookupId (df : List CsvRow) (id : Nat) : Option CsvRow :=
  df.find? (fun r => r.token_id == id)

/-- Lookup of every encoder-returned id, in order; pandas .loc raises on
the whole selection when any id is absent, hence the single Option. -/
def lookupAll (df : List CsvRow) : List Nat → Option (List CsvRow)
  | [] => some []
  | id :: rest =>
    match lookupId df id, lookupAll df rest with
    | some r, some rs => some (r :: rs)
    | _, _ => none

/-- The per-word record built in main of token2chars_ratio_analysis.py.
The two ratio fields and the average byte length are Options: none stands
for the not-a-number value the script stores when a denominator is zero
(and for the NaN mean of an empty selection). -/
structure WordAnalysis where
  word : String
  token_count : Nat
  char_count : Nat
  avg_byte_length : Option ℚ
  tokens_per_char : Option ℚ
  chars_per_token : Option ℚ
deriving DecidableEq

/-- The per-word body shared by analyze_words and the main loop: encode
the word, select the vocabulary rows of the returned ids (failing as the
spec's UnknownTokenError when one is absent), and compute counts, mean
token byte length and both ratios, with none for a zero denominator.  The
encoder is passed in, as the scripts pass enc. -/
def analyzeWord (df : List CsvRow) (encode : String → List Nat) (word : String) :
    Except AnalysisError WordAnalysis :=
  let token_ids := encode word
  match lookupAll df token_ids with
  | none => Except.error AnalysisError.unknownToken
  | some sub =>
    let tc := token_ids.length
    let cc := word.length
    Except.ok
      { word := word
        token_count := tc
        char_count := cc
        avg_byte_length :=
          if sub.length = 0 then none
          else some ((sub.map (fun r => (r.token_length : ℚ))).sum / (sub.length : ℚ))
        tokens_per_char := if cc ≠ 0 then some ((tc : ℚ) / (cc : ℚ)) else none
        chars_per_token := if tc ≠ 0 then some ((cc : ℚ) / (tc : ℚ)) else none }

/- ### Word-list loading (main of token2chars_ratio_analysis.py). -/

/-- Characters Python's str.strip removes: the Unicode whitespace set. -/
def isPySpace (c : Char) : Bool :=
  c = ' ' || c = '\t' || c = '\n' || c = '\r' || c = '\x0b' || c = '\x0c' ||
  c = '\x1c' || c = '\x1d' || c = '\x1e' || c = '\x1f' || c = '\x85' ||
  c = '\xa0' || c = ' ' || (' ' ≤ c && c ≤ ' ') ||
  c = ' ' || c = ' ' || c = ' ' || c = ' ' || c = '　'

/-- Leading and trailing whitespace removal on a character list. -/
def stripL (l : List Char) : List Char :=
  ((l.dropWhile isPySpace).reverse.dropWhile isPySpace).reverse

/-- Python's str.strip. -/
def pyStrip (s : String) : String :=
  String.mk (stripL s.data)

/-- Line-break characters recognised by Python's str.splitlines. -/
def isLineBreak (c : Char) : Bool :=
  c = '\n' || c = '\r' || c = '\x0b' || c = '\x0c' || c = '\x1c' ||
  c = '\x1d' || c = '\x1e' || c = '\x85' || c = ' ' || c = ' '

/-- Python's str.splitlines on a character list: a line break ends the
current line ('\r' immediately followed by '\n' counts as one break), and
a trailing break adds no empty final line. -/
def splitlinesL : List Char → List (List Char)
  | [] => []
  | '\r' :: '\n' :: rest => [] :: splitlinesL rest
  | c :: rest =>
    if isLineBreak c then [] :: splitlinesL rest
    else
      match splitlinesL rest with
      | [] => [[c]]
      | h :: t => (c :: h) :: t

/-- Python's str.splitlines. -/
def pySplitlines (s : String) : List String :=
  (splitlinesL s.data).map String.mk

/-- The word-list comprehension of main: keep each line's stripped form
when it is non-empty (Python truthiness of line.strip()). -/
def wordsOfLines (lines : List String) : List String :=
  (lines.filter (fun l => decide (pyStrip l ≠ ""))).map pyStrip

/-- Loading a word file: split the text into lines, strip each, drop the
blank ones. -/
def loadWordsFile (text : String) : List String :=
  wordsOfLines (pySplitlines text)

/-- Python's str.split(',') on a character list: split at every comma,
keeping empty fields; the empty input gives one empty field. -/
def splitCommaL : List Char → List (List Char)
  | [] => [[]]
  | c :: rest =>
    if c = ',' then [] :: splitCommaL rest
    else
      match splitCommaL rest with
      | [] => [[c]]
      | h :: t => (c :: h) :: t

/-- The inline word-list path of main: args of --words split on commas
verbatim. -/
def splitComma (s : String) : List String :=
  (splitCommaL s.data).map String.mk

/-- Joining fields back with commas, the inverse direction of split. -/
def joinCommas : List (List Char) → List Char
  | [] => []
  | [x] => x
  | x :: xs => x ++ ',' :: joinCommas xs

/- ### Report sink selection (main of token2chars_ratio_analysis.py). -/

/-- Where main sends the summary dataframe. -/
inductive ReportSink
  | file (name : String)
  | stdout
deriving DecidableEq

/-- The output decision of main: more than five analyzed words go to
word_summary.csv, otherwise the table is printed. -/
def reportTarget (words : List String) : ReportSink :=
  if words.length > 5 then ReportSink.file "word_summary.csv" else ReportSink.stdout

/- ### Concrete instances used by counterexamples and witnesses. -/

/-- A merge table with no tokens at all. -/
def rankNone : RankFun := fun _ => none

/-- An encoder stub returning no ids for any input. -/
def encEmpty : String → List Nat := fun _ => []

/-- A category function calling every character an uppercase letter. -/
def catLu : Char → String := fun _ => "Lu"

/-- A CSV row whose token_string field was missing (pandas NaN). -/
def rowNoString : CsvRow :=
  { token_id := 0, token_bytes := "ff", token_string := none, token_length := 1,
    is_special := false, is_printable := false, is_ascii := false }

/-- A loaded dataframe holding only rowNoString, before any bucket column
exists. -/
def frameNoString : VocabFrame :=
  { rows := [rowNoString], bucketCol := none }

/-- A one-row vocabulary with token id 0. -/
def dfOne : List CsvRow :=
  [{ token_id := 0, token_bytes := "61", token_string := some "a", token_length := 1,
     is_special := false, is_printable := true, is_ascii := true }]

/-- An encoder stub returning an id absent from dfOne. -/
def encFive : String → List Nat := fun _ => [5]

/-- An encoder stub returning the id present in dfOne. -/
def encZero : String → List Nat := fun _ => [0]

/-- A printability predicate stub. -/
def prTrue : List Char → Bool := fun _ => true

/- ### Helper lemmas about the BPE model. -/

theorem mergeAt_flatten (l : List (List Nat)) : ∀ i : Nat, (mergeAt l i).flatten = l.flatten := by
  induction l with
  | nil => intro i; cases i <;> rfl
  | cons a rest ih =>
    intro i
    cases i with
    | zero =>
      cases rest with
      | nil => rfl
      | cons b rest2 => simp [mergeAt, List.append_assoc]
    | succ n =>
      cases rest with
      | nil => rfl
      | cons b rest2 => simpa [mergeAt] using ih n

theorem bpeSteps_flatten (rank : RankFun) :
    ∀ (fuel : Nat) (syms : List (List Nat)), (bpeSteps rank fuel syms).flatten = syms.flatten := by
  intro fuel
  induction fuel with
  | zero => intro syms; rfl
  | succ n ih =>
    intro syms
    unfold bpeSteps
    cases h : bestPairAux rank syms 0 with
    | none => rfl
    | some ji => rw [ih (mergeAt syms ji.1), mergeAt_flatten]

theorem flatten_map_singleton (l : List Nat) : (l.map (fun b => [b])).flatten = l := by
  induction l with
  | nil => rfl
  | cons a rest ih => simpa using ih

/-- Claim C1: for every input string, concatenating the raw byte sequences
of the tokens produced by encoding it (in output order) yields exactly the
UTF-8 encoding of the input; no bytes are lost, added, or reordered. -/
theorem c1_encode_concat_roundtrip (rank : RankFun) (s : String) :
    (bpeTokens rank (utf8Encode s)).flatten = utf8Encode s := by
  unfold bpeTokens
  rw [bpeSteps_flatten, flatten_map_singleton]

/- ### Claim C2: frame effects of the three statistics operations. -/

theorem countP_map_fillRow (l : List CsvRow) (p : CsvRow → Bool)
    (hp : ∀ r, p (fillRow r) = p r) : (l.map fillRow).countP p = l.countP p := by
  induction l with
  | nil => rfl
  | cons a t ih => simp [List.countP_cons, hp, ih]

theorem categorize_tokens_fst (cat : Char → String) (df : VocabFrame) :
    (categorize_tokens cat df).1 =
      { rows := df.rows.map fillRow,
        bucketCol := some ((df.rows.map fillRow).map
          (fun r => bucket cat (r.token_string.getD ""))) } :=
  rfl

/-- Claim C2, amended: summary_stats and length_distribution leave the
dataframe unchanged, and categorize_tokens, although it mutates the frame
(filling missing token_string values and adding a bucket column), leaves
the columns summary_stats reads untouched, so the summary counts are
unaffected by it. -/
theorem c2_stats_frame_effects (df : VocabFrame) (cat : Char → String) :
    (summary_stats df).1 = df ∧
    (length_distribution df).1 = df ∧
    summaryOf (categorize_tokens cat df).1 = summaryOf df ∧
    ((categorize_tokens cat df).1).rows.map
        (fun r => (r.token_id, r.token_bytes, r.token_length,
          r.is_special, r.is_printable, r.is_ascii)) =
      df.rows.map
        (fun r => (r.token_id, r.token_bytes, r.token_length,
          r.is_special, r.is_printable, r.is_ascii)) := by
  refine ⟨rfl, rfl, ?_, ?_⟩
  · rw [categorize_tokens_fst]
    unfold summaryOf
    simp only [List.length_map]
    rw [countP_map_fillRow df.rows (fun r => r.is_special) (fun r => rfl),
      countP_map_fillRow df.rows (fun r => r.is_printable) (fun r => rfl),
      countP_map_fillRow df.rows (fun r => r.is_ascii) (fun r => rfl)]
  · rw [categorize_tokens_fst]
    rw [List.map_map]
    rfl

/-- Claim C2 counterexample: running categorize_tokens on a table holding
a row with a missing token_string does not leave the table unchanged — it
rewrites the token_string column and adds a bucket column. -/
theorem c2_categorize_mutates : (categorize_tokens catLu frameNoString).1 ≠ frameNoString := by
  decide

/- ### Claim C3: the empty input word. -/

/-- Claim C3: encoding the empty word yields an empty token sequence, and
its analysis reports zero token and character counts with not-a-number
(none) ratio fields instead of raising a division error. -/
theorem c3_empty_word_analysis (rank : RankFun) (df : List CsvRow)
    (encode : String → List Nat) (henc : encode "" = []) :
    bpeEncodeIds rank "" = Except.ok [] ∧
    analyzeWord df encode "" =
      Except.ok { word := "", token_count := 0, char_count := 0,
                  avg_byte_length := none, tokens_per_char := none,
                  chars_per_token := none } := by
  constructor
  · rfl
  · simp only [analyzeWord, henc]
    rfl

theorem c3_empty_word_analysis_witness :
    bpeEncodeIds rankNone "" = Except.ok [] ∧
    analyzeWord [] encEmpty "" =
      Except.ok { word := "", token_count := 0, char_count := 0,
                  avg_byte_length := none, tokens_per_char := none,
                  chars_per_token := none } :=
  c3_empty_word_analysis rankNone [] encEmpty rfl

/- ### Claim C4: bucket assignment. -/

/-- Claim C4: the bucket of a token string is "empty" for the empty
string; a string starting with the whitespace-marker glyph is always
"whitespace_prefixed" regardless of the Unicode category function; any
other string is bucketed purely by the general Unicode category of its
first character, into one of letter, number, punctuation, space or
other. -/
theorem c4_bucket_assignment (cat : Char → String) (s : String) :
    (s = "" → bucket cat s = "empty") ∧
    (∀ c rest, s.data = c :: rest →
      (c = 'Ġ' → bucket cat s = "whitespace_prefixed") ∧
      (c ≠ 'Ġ' →
        bucket cat s = specBucketOfCategory (cat c) ∧
        specBucketOfCategory (cat c) ∈
          ["letter", "number", "punctuation", "space", "other"])) := by
  constructor
  · intro h; subst h; rfl
  · intro c rest hdata
    constructor
    · intro hg
      subst hg
      unfold bucket
      rw [hdata]
      simp
    · intro hg
      constructor
      · unfold bucket specBucketOfCategory
        rw [hdata]
        simp [hg]
      · unfold specBucketOfCategory
        split_ifs <;> simp

theorem c4_bucket_assignment_witness :
    bucket catLu "Ġx" = "whitespace_prefixed" ∧
    (bucket catLu "hi" = specBucketOfCategory (catLu 'h') ∧
      specBucketOfCategory (catLu 'h') ∈
        ["letter", "number", "punctuation", "space", "other"]) :=
  ⟨((c4_bucket_assignment catLu "Ġx").2 'Ġ' ['x'] rfl).1 rfl,
   ((c4_bucket_assignment catLu "hi").2 'h' ['i'] rfl).2 (by decide)⟩

/- ### Claim C5: best-effort decoding of the vocabulary dump. -/

theorem repChar_mem_aux :
    ∀ (fuel : Nat) (l : List Nat),
      utf8ValidAux fuel l = false → repChar ∈ utf8DecodeReplaceAux fuel l := by
  intro fuel
  induction fuel with
  | zero =>
    intro l hval
    simp [utf8ValidAux] at hval
  | succ n ih =>
    intro l hval
    cases l with
    | nil => simp [utf8ValidAux, utf8ValidStep] at hval
    | cons b rest =>
      by_cases hb : b < 0x80
      · have hv : utf8ValidAux n rest = false := by
          simpa [utf8ValidAux, utf8ValidStep, hb] using hval
        simp [utf8DecodeReplaceAux, utf8DecodeStep, hb]
        exact Or.inr (ih rest hv)
      · cases h2 : (0xC2 ≤ b && b ≤ 0xDF) with
        | true =>
          cases rest with
          | nil => simp [utf8DecodeReplaceAux, utf8DecodeStep, hb, h2]
          | cons b1 rest1 =>
            cases hc : contByte b1 with
            | true =>
              have hv : utf8ValidAux n rest1 = false := by
                simpa [utf8ValidAux, utf8ValidStep, hb, h2, hc] using hval
              simp [utf8DecodeReplaceAux, utf8DecodeStep, hb, h2, hc]
              exact Or.inr (ih rest1 hv)
            | false => simp [utf8DecodeReplaceAux, utf8DecodeStep, hb, h2, hc]
        | false =>
          cases h3 : (0xE0 ≤ b && b ≤ 0xEF) with
          | true =>
            cases rest with
            | nil => simp [utf8DecodeReplaceAux, utf8DecodeStep, hb, h2, h3]
            | cons b1 rest1 =>
              cases h31 : contByte1of3 b b1 with
              | true =>
                cases rest1 with
                | nil => simp [utf8DecodeReplaceAux, utf8DecodeStep, hb, h2, h3, h31]
                | cons b2 rest2 =>
                  cases h32 : contByte b2 with
                  | true =>
                    have hv : utf8ValidAux n rest2 = false := by
                      simpa [utf8ValidAux, utf8ValidStep, hb, h2, h3, h31, h32] using hval
                    simp [utf8DecodeReplaceAux, utf8DecodeStep, hb, h2, h3, h31, h32]
                    exact Or.inr (ih rest2 hv)
                  | false => simp [utf8DecodeReplaceAux, utf8DecodeStep, hb, h2, h3, h31, h32]
              | false => simp [utf8DecodeReplaceAux, utf8DecodeStep, hb, h2, h3, h31]
          | false =>
            cases h4 : (0xF0 ≤ b && b ≤ 0xF4) with
            | true =>
              cases rest with
              | nil => simp [utf8DecodeReplaceAux, utf8DecodeStep, hb, h2, h3, h4]
              | cons b1 rest1 =>
                cases h41 : contByte1of4 b b1 with
                | true =>
                  cases rest1 with
                  | nil => simp [utf8DecodeReplaceAux, utf8DecodeStep, hb, h2, h3, h4, h41]
                  | cons b2 rest2 =>
                    cases h42 : contByte b2 with
                    | true =>
                      cases rest2 with
                      | nil =>
                        simp [utf8DecodeReplaceAux, utf8DecodeStep, hb, h2, h3, h4, h41, h42]
                      | cons b3 rest3 =>
                        cases h43 : contByte b3 with
                        | true =>
                          have hv : utf8ValidAux n rest3 = false := by
                            simpa [utf8ValidAux, utf8ValidStep, hb, h2, h3, h4, h41, h42, h43]
                              using hval
                          simp [utf8DecodeReplaceAux, utf8DecodeStep, hb, h2, h3, h4, h41,
                            h42, h43]
                          exact Or.inr (ih rest3 hv)
                        | false =>
                          simp [utf8DecodeReplaceAux, utf8DecodeStep, hb, h2, h3, h4, h41,
                            h42, h43]
                    | false =>
                      simp [utf8DecodeReplaceAux, utf8DecodeStep, hb, h2, h3, h4, h41, h42]
                | false => simp [utf8DecodeReplaceAux, utf8DecodeStep, hb, h2, h3, h4, h41]
            | false => simp [utf8DecodeReplaceAux, utf8DecodeStep, hb, h2, h3, h4]

/-- Claim C5: building a vocabulary record never fails for any byte
sequence: the token string is the best-effort decode (strict when the
bytes are valid UTF-8, with replacement characters substituted
otherwise), and the is_printable and is_ascii attributes are derived from
that decoded string. -/
theorem c5_vocab_row_decode (pr : List Char → Bool) (vals : List PyVal) (idx : Nat)
    (token : List Nat) :
    (mkVocabRow pr vals idx token).token_string = pyDecode token ∧
    (mkVocabRow pr vals idx token).is_printable = pr (pyDecode token) ∧
    (mkVocabRow pr vals idx token).is_ascii = (pyDecode token).all (fun c => c.toNat < 128) ∧
    (∀ cs, utf8DecodeStrict token = some cs → pyDecode token = cs) ∧
    (utf8DecodeStrict token = none →
      pyDecode token = utf8DecodeReplace token ∧ repChar ∈ pyDecode token) := by
  refine ⟨rfl, rfl, rfl, ?_, ?_⟩
  · intro cs h
    unfold pyDecode
    rw [h]
  · intro h
    have hval : utf8Valid token = false := by
      unfold utf8DecodeStrict at h
      by_cases hv : utf8Valid token = true
      · rw [if_pos hv] at h; cases h
      · simpa using hv
    refine ⟨by unfold pyDecode; rw [h], ?_⟩
    show repChar ∈ pyDecode token
    unfold pyDecode
    rw [h]
    exact repChar_mem_aux token.length token hval

theorem c5_vocab_row_decode_witness :
    pyDecode [104, 105] = ['h', 'i'] ∧
    (pyDecode [255] = utf8DecodeReplace [255] ∧ repChar ∈ pyDecode [255]) :=
  ⟨(c5_vocab_row_decode prTrue [] 0 [104, 105]).2.2.2.1 ['h', 'i'] (by decide),
   (c5_vocab_row_decode prTrue [] 0 [255]).2.2.2.2 (by decide)⟩

/- ### Claim C6: unknown token ids fail the per-word analysis. -/

theorem lookupAll_eq_none (df : List CsvRow) :
    ∀ ids : List Nat, (∃ id ∈ ids, lookupId df id = none) → lookupAll df ids = none := by
  intro ids
  induction ids with
  | nil =>
    rintro ⟨id, hmem, _⟩
    simp at hmem
  | cons a rest ih =>
    rintro ⟨id, hmem, hnone⟩
    rcases List.mem_cons.mp hmem with heq | hmem2
    · subst heq
      cases hrest : lookupAll df rest <;> simp [lookupAll, hnone, hrest]
    · have hr := ih ⟨id, hmem2, hnone⟩
      cases ha : lookupId df a <;> simp [lookupAll, ha, hr]

theorem lookupAll_isSome (df : List CsvRow) :
    ∀ ids : List Nat, (∀ id ∈ ids, (lookupId df id).isSome) →
      ∃ l, lookupAll df ids = some l := by
  intro ids
  induction ids with
  | nil => intro _; exact ⟨[], rfl⟩
  | cons a rest ih =>
    intro h
    obtain ⟨r, hr⟩ := Option.isSome_iff_exists.mp (h a (List.mem_cons_self a rest))
    obtain ⟨rs, hrs⟩ := ih (fun id hid => h id (List.mem_cons_of_mem a hid))
    exact ⟨r :: rs, by simp [lookupAll, hr, hrs]⟩

/-- Claim C6: when the encoder returns an id absent from the loaded
vocabulary, the analysis of that word fails with the UnknownTokenError
propagated from the table lookup; when every returned id is present, the
lookup — and with it the per-word analysis — succeeds. -/
theorem c6_unknown_token_lookup (df : List CsvRow) (encode : String → List Nat)
    (word : String) :
    ((∃ id ∈ encode word, lookupId df id = none) →
      analyzeWord df encode word = Except.error AnalysisError.unknownToken) ∧
    ((∀ id ∈ encode word, (lookupId df id).isSome) →
      ∃ a, analyzeWord df encode word = Except.ok a) := by
  constructor
  · intro h
    have hn := lookupAll_eq_none df (encode word) h
    simp [analyzeWord, hn]
  · intro h
    obtain ⟨l, hl⟩ := lookupAll_isSome df (encode word) h
    exact ⟨_, by simp [analyzeWord, hl]; rfl⟩

theorem c6_unknown_token_lookup_witness :
    analyzeWord dfOne encFive "x" = Except.error AnalysisError.unknownToken ∧
    ∃ a, analyzeWord dfOne encZero "x" = Except.ok a :=
  ⟨(c6_unknown_token_lookup dfOne encFive "x").1 ⟨5, by decide, by decide⟩,
   (c6_unknown_token_lookup dfOne encZero "x").2 (by decide)⟩

/- ### Claim C7: word-file loading. -/

theorem dropWhile_dropWhile (p : Char → Bool) (l : List Char) :
    (l.dropWhile p).dropWhile p = l.dropWhile p := by
  induction l with
  | nil => rfl
  | cons a t ih =>
    cases hpa : p a with
    | true => simpa [List.dropWhile_cons, hpa] using ih
    | false => simp [List.dropWhile_cons, hpa]

theorem dropWhile_head_false (p : Char → Bool) :
    ∀ (l : List Char) (c : Char) (t : List Char), l.dropWhile p = c :: t → p c = false := by
  intro l
  induction l with
  | nil => intro c t h; simp at h
  | cons a l2 ih =>
    intro c t h
    cases hpa : p a with
    | true =>
      simp [List.dropWhile_cons, hpa] at h
      exact ih c t h
    | false =>
      simp [List.dropWhile_cons, hpa] at h
      rw [← h.1]
      exact hpa

theorem stripL_idem (l : List Char) : stripL (stripL l) = stripL l := by
  have key : ∀ m : List Char,
      (((m.dropWhile isPySpace).reverse.dropWhile isPySpace).reverse).dropWhile isPySpace
        = ((m.dropWhile isPySpace).reverse.dropWhile isPySpace).reverse := by
    intro m
    cases hur : ((m.dropWhile isPySpace).reverse.dropWhile isPySpace).reverse with
    | nil => rfl
    | cons c t =>
      have hd : ((m.dropWhile isPySpace).reverse.dropWhile isPySpace).reverse ++
          ((m.dropWhile isPySpace).reverse.takeWhile isPySpace).reverse
          = m.dropWhile isPySpace := by
        rw [← List.reverse_append, List.takeWhile_append_dropWhile, List.reverse_reverse]
      rw [hur] at hd
      have hpc : isPySpace c = false :=
        dropWhile_head_false isPySpace m c
          (t ++ ((m.dropWhile isPySpace).reverse.takeWhile isPySpace).reverse) hd.symm
      simp [List.dropWhile_cons, hpc]
  unfold stripL
  rw [key l, List.reverse_reverse, dropWhile_dropWhile]

theorem pyStrip_idem (s : String) : pyStrip (pyStrip s) = pyStrip s := by
  unfold pyStrip
  rw [show (String.mk (stripL s.data)).data = stripL s.data from rfl, stripL_idem]

theorem filter_map_eq_filterMap (f : String → String) (l : List String) :
    (l.filter (fun x => decide (f x ≠ ""))).map f =
      l.filterMap (fun x => if f x = "" then none else some (f x)) := by
  induction l with
  | nil => rfl
  | cons a t ih =>
    simp only [decide_not] at ih ⊢
    by_cases h : f a = "" <;> simp [List.filter_cons, List.filterMap_cons, h, ih]

/-- Claim C7: for any word-list file content, the loaded words are exactly
the stripped forms of the non-blank lines, in original order — blank and
whitespace-only lines are dropped, and every kept entry is non-empty and
carries no leading or trailing whitespace (stripping it again changes
nothing). -/
theorem c7_word_file_loading (text : String) :
    loadWordsFile text =
      (pySplitlines text).filterMap
        (fun l => if pyStrip l = "" then none else some (pyStrip l)) ∧
    ∀ w ∈ loadWordsFile text, w ≠ "" ∧ pyStrip w = w := by
  constructor
  · exact filter_map_eq_filterMap pyStrip (pySplitlines text)
  · intro w hw
    unfold loadWordsFile wordsOfLines at hw
    simp only [List.mem_map, List.mem_filter] at hw
    obtain ⟨x, ⟨hxmem, hxne⟩, hxw⟩ := hw
    subst hxw
    refine ⟨by simpa using hxne, pyStrip_idem x⟩

theorem c7_word_file_loading_witness : "hi" ≠ "" ∧ pyStrip "hi" = "hi" :=
  (c7_word_file_loading "hi\n  ").2 "hi" (by decide)

/- ### Claim C8: report destination threshold. -/

/-- Claim C8: for a non-empty batch, the summary is written to the
word_summary.csv file exactly when more than five words were analyzed,
and printed to standard output otherwise. -/
theorem c8_report_threshold (words : List String) (h : words ≠ []) :
    (reportTarget words = ReportSink.file "word_summary.csv" ↔ 5 < words.length) ∧
    (reportTarget words = ReportSink.stdout ↔ words.length ≤ 5) := by
  unfold reportTarget
  by_cases h5 : words.length > 5
  · rw [if_pos h5]
    refine ⟨⟨fun _ => h5, fun _ => rfl⟩, ⟨fun hfe => ReportSink.noConfusion hfe, ?_⟩⟩
    intro hle
    exact absurd hle (Nat.not_le.mpr h5)
  · rw [if_neg h5]
    refine ⟨⟨fun hfe => ReportSink.noConfusion hfe, fun hlt => absurd hlt h5⟩,
      ⟨fun _ => Nat.not_lt.mp h5, fun _ => rfl⟩⟩

theorem c8_report_threshold_witness :
    (reportTarget ["a", "b", "c", "d", "e", "f"] = ReportSink.file "word_summary.csv" ↔
      5 < (["a", "b", "c", "d", "e", "f"] : List String).length) ∧
    (reportTarget ["a", "b", "c", "d", "e", "f"] = ReportSink.stdout ↔
      (["a", "b", "c", "d", "e", "f"] : List String).length ≤ 5) :=
  c8_report_threshold ["a", "b", "c", "d", "e", "f"] (by decide)

/- ### Claim C9: the dumped is_special flag. -/

/-- Claim C9: every row of the dumped vocabulary carries is_special =
false — the rows come only from the mergeable-ranks entries, and the
special-token test compares the token's byte string against the
special-token registry's values, which are integer ids, a Python
comparison that never holds. -/
theorem c9_is_special_always_false (pr : List Char → Bool)
    (registry : List (String × Nat)) (entries : List (Nat × List Nat)) :
    ∀ row ∈ vocabData pr registry entries, row.is_special = false := by
  intro row hrow
  rcases List.mem_map.mp hrow with ⟨e, hke, hre⟩
  subst hre
  simp only [mkVocabRow, isSpecialFlag, List.any_map, Function.comp, List.any_eq_false]
  intro v hv
  rcases List.mem_map.mp hv with ⟨p, hp, hpe⟩
  subst hpe
  simp [pyEq]

theorem c9_is_special_always_false_witness :
    (mkVocabRow prTrue [PyVal.pyint 199999] 0 [104]).is_special = false :=
  c9_is_special_always_false prTrue [("reserved", 199999)] [(0, [104])]
    (mkVocabRow prTrue [PyVal.pyint 199999] 0 [104]) (by decide)

/- ### Claim C10: inline comma-separated words. -/

theorem splitCommaL_ne_nil : ∀ l : List Char, splitCommaL l ≠ [] := by
  intro l
  induction l with
  | nil => simp [splitCommaL]
  | cons c rest ih =>
    by_cases hc : c = ','
    · simp [splitCommaL, hc]
    · cases hs : splitCommaL rest with
      | nil => exact absurd hs ih
      | cons h t => simp [splitCommaL, hc, hs]

theorem joinCommas_splitCommaL (l : List Char) : joinCommas (splitCommaL l) = l := by
  induction l with
  | nil => rfl
  | cons c rest ih =>
    by_cases hc : c = ','
    · subst hc
      rw [show splitCommaL (',' :: rest) = [] :: splitCommaL rest from by simp [splitCommaL]]
      cases hs : splitCommaL rest with
      | nil => exact absurd hs (splitCommaL_ne_nil rest)
      | cons h t =>
        rw [hs] at ih
        simpa [joinCommas] using ih
    · rw [show splitCommaL (c :: rest) =
          (match splitCommaL rest with
           | [] => [[c]]
           | h :: t => (c :: h) :: t) from by simp [splitCommaL, hc]]
      cases hs : splitCommaL rest with
      | nil => exact absurd hs (splitCommaL_ne_nil rest)
      | cons h t =>
        rw [hs] at ih
        cases t with
        | nil =>
          simp [joinCommas] at ih
          simp [joinCommas, ih]
        | cons h2 t2 =>
          simp [joinCommas] at ih ⊢
          rw [ih]

/-- Claim C10: the inline word list is split on commas verbatim — joining
the fields back with commas restores the input exactly, so entries keep
their surrounding whitespace and empty fields are kept — unlike the
word-file loader, which strips entries and drops blanks; on the input
"a, b" the two paths produce different word lists. -/
theorem c10_inline_split_verbatim :
    (∀ l : List Char, joinCommas (splitCommaL l) = l) ∧
    splitComma "a, b" = ["a", " b"] ∧
    loadWordsFile "a\n b" = ["a", "b"] ∧
    splitComma "a, b" ≠ loadWordsFile "a\n b" ∧
    splitComma "a,,b" = ["a", "", "b"] :=
  ⟨joinCommas_splitCommaL, by decide, by decide, by decide, by decide⟩
